import Mathlib

/-!
# Verification of the beans capability registry

Shallow embedding of the beans runtime capability registry
(`include/beans.hpp`, `src/beans.cpp`, and the documented header variant
`unnamed/part_000`).

Modelling choices:
* A C++ `const std::type_info*` capability identity is modelled as a `Nat`;
  `typeid(T).name()` is modelled by rendering that number (`capName`).
* A factory closure `std::function<void*()>` is either `new Implementation`
  (a fresh allocation, modelled as `none`) or a lambda capturing a fixed
  instance pointer (modelled as `some p`).  Allocation is modelled by an
  explicit heap: a fresh-address counter plus the list of live addresses.
* `std::map<const std::type_info*, std::vector<TypeInformation>>` is modelled
  as an association list keyed by the capability identity; reading and
  appending both act on the first entry with the key, and a missing key is
  observationally an empty vector.
* The registry chain (root node plus the `m_child` spine) is a root database
  together with the list of open session databases, root first, leaf last.
* The process-wide reentrant lock is modelled as an acquisition depth.
-/

/-- Ownership kind of a registered binding,
`TypeInformation::OwnerShip` in `beans.hpp`. -/
inductive OwnerShip where
  | OS_OWNED
  | OS_FROM_INSTANCE
deriving DecidableEq, Repr

/-- One binding record, `struct TypeInformation` in `beans.hpp`.
`ctor` models the `constructor` closure: `none` is `[]() { return new
Implementation; }` (fresh allocation per call), `some p` is
`[instance]() { return instance; }` (always the captured pointer `p`). -/
structure TypeInformation where
  typeId : Nat
  ownerShip : OwnerShip
  shortName : Nat
  qualifName : Nat
  tag : String
  ctor : Option Nat
deriving DecidableEq, Repr

/-- The per-node binding map `TypeDatabaseManager::m_db`:
an association list from capability identity to the ordered vector of
binding records. -/
abbrev NodeDb := List (Nat × List TypeInformation)

/-- `m_db.find(interface)`: the record vector stored for `interface`,
`[]` when the key is absent (observationally identical to `m_db.end()`
in every code path of the source). -/
def dbLookup (db : NodeDb) (iface : Nat) : List TypeInformation :=
  match db with
  | [] => []
  | (k, recs) :: rest => if k = iface then recs else dbLookup rest iface

/-- The shared tail of both registration templates:
`if (!m_db.count(interface)) m_db.emplace(interface, {});` followed by
`m_db.at(interface).emplace_back(info)`. -/
def dbRegister (db : NodeDb) (iface : Nat) (info : TypeInformation) : NodeDb :=
  match db with
  | [] => [(iface, [info])]
  | (k, recs) :: rest =>
      if k = iface then (k, recs ++ [info]) :: rest
      else (k, recs) :: dbRegister rest iface info

/-- The record built by `TypeDatabaseManager::registerImplementation<Interface,
Implementation>`: `OS_OWNED`, a `new Implementation` factory, and — exactly as
in the source — the `tag` field left at its default empty value (the `tag`
argument is never stored). -/
def implRecord (iface impl : Nat) : TypeInformation :=
  { typeId := impl
    ownerShip := OwnerShip.OS_OWNED
    shortName := iface
    qualifName := iface
    tag := ""
    ctor := none }

/-- The record built by `TypeDatabaseManager::registerInstance<Interface,
Implementation>` for instance pointer `p`: `OS_FROM_INSTANCE`, a factory that
always returns `p`, and the `tag` field left empty (the `tag` argument is
never stored). -/
def instRecord (iface impl p : Nat) : TypeInformation :=
  { typeId := impl
    ownerShip := OwnerShip.OS_FROM_INSTANCE
    shortName := iface
    qualifName := iface
    tag := ""
    ctor := some p }

/-- `TypeDatabaseManager::registerImplementation` on one node.  The `tag`
parameter is accepted but, as in the source, discarded. -/
def registerImplementation (db : NodeDb) (iface impl : Nat) (_tag : String) : NodeDb :=
  dbRegister db iface (implRecord iface impl)

/-- `TypeDatabaseManager::registerInstance` on one node.  The `tag`
parameter is accepted but, as in the source, discarded. -/
def registerInstance (db : NodeDb) (iface impl p : Nat) (_tag : String) : NodeDb :=
  dbRegister db iface (instRecord iface impl p)

/-- `TypeDatabaseManager::shallowFind` (`beans.cpp`).  Reverse iterators
(`rbegin`/`rend`) are modelled by searching the reversed record list, and
`it->second.back()` by `List.getLast?`.  The branch structure is kept exactly
as in the source: when the requested tag is empty the loop condition
`tag == it2->tag` looks for the latest record with an (empty) equal tag;
when the requested tag is non-empty the code first looks for the latest
record with an empty stored tag and otherwise takes the last record. -/
def shallowFind (db : NodeDb) (iface : Nat) (tag : String) : Option TypeInformation :=
  let recs := dbLookup db iface
  if tag = "" then
    recs.reverse.find? (fun r => tag = r.tag)
  else
    match recs.reverse.find? (fun r => r.tag = "") with
    | some m => some m
    | none => recs.getLast?

/-- `TypeDatabaseManager::deepFind` (`beans.cpp`) on the chain of nodes,
root first, leaf last: the head node delegates to its child chain first and
performs its own `shallowFind` only when the child chain yields nothing. -/
def deepFind (chain : List NodeDb) (iface : Nat) (tag : String) : Option TypeInformation :=
  match chain with
  | [] => none
  | node :: rest =>
      match deepFind rest iface tag with
      | some m => some m
      | none => shallowFind node iface tag

/-- The registry chain: the process-wide root database (`topLevelDb`) plus
the open session databases in opening order (the `m_child` spine); the leaf
(`lowLevelDb`) is the last session, or the root when none is open. -/
structure Chain where
  root : NodeDb
  sessions : List NodeDb
deriving DecidableEq, Repr

/-- The chain as the node list walked by `deepFind` starting at
`topLevelDb()`: root first, leaf last. -/
def Chain.toList (c : Chain) : List NodeDb :=
  c.root :: c.sessions

/-- `lowLevelDb()`: follow `getChild()` from the root to the last node. -/
def Chain.leaf (c : Chain) : NodeDb :=
  c.sessions.getLast?.getD c.root

/-- Replace the last element of a list by its image under `f`. -/
def modifyLast (f : NodeDb → NodeDb) : List NodeDb → List NodeDb
  | [] => []
  | [n] => [f n]
  | n :: m :: rest => n :: modifyLast f (m :: rest)

/-- Apply a node operation at `lowLevelDb()`: at the root when no session is
open, otherwise at the innermost session node. -/
def applyAtLeaf (c : Chain) (f : NodeDb → NodeDb) : Chain :=
  match c.sessions with
  | [] => { c with root := f c.root }
  | s :: rest => { c with sessions := modifyLast f (s :: rest) }

/-- The chain effect of `LockedEnvironment`'s constructor: allocate an empty
node, set its parent to the current leaf, and attach it as that leaf's child
(it becomes the new `lowLevelDb`). -/
def openChain (c : Chain) : Chain :=
  { c with sessions := c.sessions ++ [([] : NodeDb)] }

/-- The chain effect of detaching the innermost session node
(`parent->setChild(nullptr)` on the current leaf's parent): the leaf node is
destroyed and its parent becomes the leaf again. -/
def closeChain (c : Chain) : Chain :=
  { c with sessions := c.sessions.dropLast }

/-- The free function `beans::registerImplementation<Interface,
Implementation>(tag)`: registers on `lowLevelDb()` under the lock. -/
def beansRegisterImplementation (c : Chain) (iface impl : Nat) (tag : String) : Chain :=
  applyAtLeaf c (fun db => registerImplementation db iface impl tag)

/-- The free function `beans::registerInstance<Interface>(instance, tag)`:
registers on `lowLevelDb()` under the lock. -/
def beansRegisterInstance (c : Chain) (iface impl p : Nat) (tag : String) : Chain :=
  applyAtLeaf c (fun db => registerInstance db iface impl p tag)

/-- The allocation model for factory results: the next fresh address and the
list of currently live addresses. -/
structure Heap where
  next : Nat
  live : List Nat
deriving DecidableEq, Repr

/-- Heap sanity: every live address was allocated before the fresh counter. -/
def heapWF (h : Heap) : Prop :=
  ∀ x ∈ h.live, x < h.next

/-- Invoke a binding's `constructor` closure: a captured-instance factory
returns its constant pointer without touching the heap, a `new
Implementation` factory returns a fresh address and records it as live. -/
def invokeCtor (c : Option Nat) (h : Heap) : Nat × Heap :=
  match c with
  | some p => (p, h)
  | none => (h.next, { next := h.next + 1, live := h.live ++ [h.next] })

/-- The state of a constructed `Bean<T>`: the resolved pointer `m_ptr` and
whether `m_ownedPtr` was set to own it (`ownerShip == OS_OWNED`). -/
structure BeanHandle where
  ptr : Nat
  owned : Bool
deriving DecidableEq, Repr

/-- `beans::error::InterfaceNotDeclaredError`: the stored `type_info`
reference, the stored tag (empty for the tagless constructor), and the
`what()` message. -/
structure InterfaceNotDeclaredError where
  typeInfo : Nat
  tag : String
  what : String
deriving DecidableEq, Repr

/-- `typeid(T).name()`, modelled as a rendering of the capability identity. -/
def capName (iface : Nat) : String :=
  toString iface

/-- The one-argument error constructor (`beans.cpp`): stores the interface,
leaves the tag empty, and formats the tagless message. -/
def errorNoTag (iface : Nat) : InterfaceNotDeclaredError :=
  { typeInfo := iface
    tag := ""
    what := "Beans: Implementation for \"" ++ capName iface ++ "\" was not declared." }

/-- The two-argument error constructor (`beans.cpp`): stores the interface
and the tag, and formats the tagged message. -/
def errorWithTag (iface : Nat) (tag : String) : InterfaceNotDeclaredError :=
  { typeInfo := iface
    tag := tag
    what := "Beans: Implementation for \"" ++ capName iface ++ "\" with tag \""
              ++ tag ++ "\" was not declared." }

/-- `Bean<T>::Bean(tag)`: under the lock, `deepFind` from `topLevelDb()`;
on no match throw `InterfaceNotDeclaredError` (tagless or tagged according to
the requested tag); on a match invoke the record's constructor and take
ownership (`m_ownedPtr.reset`) exactly when the record is `OS_OWNED`. -/
def beanConstruct (c : Chain) (iface : Nat) (tag : String) (h : Heap) :
    Except InterfaceNotDeclaredError (BeanHandle × Heap) :=
  match deepFind c.toList iface tag with
  | none =>
      if tag = "" then Except.error (errorNoTag iface)
      else Except.error (errorWithTag iface tag)
  | some info =>
      let r := invokeCtor info.ctor h
      Except.ok ({ ptr := r.1, owned := info.ownerShip = OwnerShip.OS_OWNED }, r.2)

/-- `Bean<T>::~Bean()`: `m_ownedPtr` deletes the instance exactly when the
handle owns it; an unowned handle leaves the heap untouched. -/
def beanDestroy (b : BeanHandle) (h : Heap) : Heap :=
  if b.owned then { h with live := h.live.erase b.ptr } else h

/-- The global registry state the session controllers act on: the chain and
the reentrant lock's acquisition depth. -/
structure GlobalState where
  chain : Chain
  lockDepth : Nat
deriving DecidableEq, Repr

/-- The per-object state of the documented `LockedEnvironment`
(`unnamed/part_000`): the `unlocked` flag (and, implied by it, whether
`m_lock` still holds the lock). -/
structure EnvP0 where
  unlocked : Bool
deriving DecidableEq, Repr

/-- `LockedEnvironment::LockedEnvironment()` (`unnamed/part_000`): acquire
the lock, attach a fresh node as the new leaf, and start not-unlocked. -/
def envOpenP0 (g : GlobalState) : EnvP0 × GlobalState :=
  ({ unlocked := false },
   { chain := openChain g.chain, lockDepth := g.lockDepth + 1 })

/-- `LockedEnvironment::unlock()` (`unnamed/part_000`): when not already
unlocked, detach the current leaf from its parent, release the lock, and set
the flag; otherwise do nothing. -/
def envUnlockP0 (e : EnvP0) (g : GlobalState) : EnvP0 × GlobalState :=
  if e.unlocked then (e, g)
  else ({ unlocked := true },
        { chain := closeChain g.chain, lockDepth := g.lockDepth - 1 })

/-- `LockedEnvironment::~LockedEnvironment()` (`unnamed/part_000`): simply
calls `unlock()`. -/
def envDestroyP0 (e : EnvP0) (g : GlobalState) : GlobalState :=
  (envUnlockP0 e g).2

/-- The per-object state of the `LockedEnvironment` in `include/beans.hpp`:
whether `m_lock` is still non-null (still holding the lock). -/
structure EnvHpp where
  lockHeld : Bool
deriving DecidableEq, Repr

/-- `LockedEnvironment::LockedEnvironment()` (`include/beans.hpp`): acquire
the lock and attach a fresh node as the new leaf. -/
def envOpenHpp (g : GlobalState) : EnvHpp × GlobalState :=
  ({ lockHeld := true },
   { chain := openChain g.chain, lockDepth := g.lockDepth + 1 })

/-- `LockedEnvironment::unlock()` (`include/beans.hpp`): `m_lock.reset()`
releases the lock (once); the chain is NOT touched. -/
def envUnlockHpp (e : EnvHpp) (g : GlobalState) : EnvHpp × GlobalState :=
  if e.lockHeld then ({ lockHeld := false }, { g with lockDepth := g.lockDepth - 1 })
  else (e, g)

/-- `LockedEnvironment::~LockedEnvironment()` (`include/beans.hpp`):
unconditionally detaches the current leaf (`lowLevelDb`) from its parent,
then destroys `m_lock`, releasing the lock if still held. -/
def envDestroyHpp (e : EnvHpp) (g : GlobalState) : GlobalState :=
  let g' : GlobalState := { g with chain := closeChain g.chain }
  if e.lockHeld then { g' with lockDepth := g'.lockDepth - 1 } else g'

/-- A registration operation performed inside a session, for stating
round-trip laws over arbitrary activity. -/
inductive RegOp where
  | impl (iface impl : Nat) (tag : String)
  | inst (iface impl p : Nat) (tag : String)
deriving DecidableEq, Repr

/-- Run one registration entry point on the chain. -/
def applyOp (c : Chain) : RegOp → Chain
  | RegOp.impl iface impl tag => beansRegisterImplementation c iface impl tag
  | RegOp.inst iface impl p tag => beansRegisterInstance c iface impl p tag

/-- Run a sequence of registration entry points on the chain. -/
def applyOps (c : Chain) : List RegOp → Chain
  | [] => c
  | op :: ops => applyOps (applyOp c op) ops

/-! ## Helper lemmas -/

/-- Searching the reversed list finds the last matching element: the result
splits the list so that everything after the result fails the predicate. -/
theorem reverse_find_eq_some_iff {α : Type} (l : List α) (p : α → Bool) (r : α) :
    l.reverse.find? p = some r ↔
      p r = true ∧ ∃ l1 l2, l = l1 ++ r :: l2 ∧ ∀ x ∈ l2, p x = false := by
  rw [List.find?_eq_some]
  constructor
  · rintro ⟨hp, as, bs, hrev, hall⟩
    refine ⟨hp, bs.reverse, as.reverse, ?_, ?_⟩
    · have h := congrArg List.reverse hrev
      simpa using h
    · intro x hx
      have hx' : x ∈ as := by simpa using hx
      have := hall x hx'
      simpa using this
  · rintro ⟨hp, l1, l2, rfl, hall⟩
    refine ⟨hp, l2.reverse, l1.reverse, by simp, ?_⟩
    intro a ha
    have ha' : a ∈ l2 := by simpa using ha
    simpa using hall a ha'

/-- Searching the reversed list fails exactly when no element matches. -/
theorem reverse_find_eq_none_iff {α : Type} (l : List α) (p : α → Bool) :
    l.reverse.find? p = none ↔ ∀ x ∈ l, p x = false := by
  rw [List.find?_eq_none]
  constructor
  · intro h x hx
    have := h x (by simpa using hx)
    simpa using this
  · intro h x hx
    have := h x (by simpa using hx)
    simp [this]

/-- `modifyLast` on a list ending in `x` rewrites only that `x`. -/
theorem modifyLast_concat (f : NodeDb → NodeDb) :
    ∀ (l : List NodeDb) (x : NodeDb), modifyLast f (l ++ [x]) = l ++ [f x]
  | [], _ => rfl
  | [n], x => rfl
  | n :: m :: rest, x => by
      have ih := modifyLast_concat f (m :: rest) x
      exact congrArg (List.cons n) ih

/-- `modifyLast` preserves the length. -/
theorem modifyLast_length (f : NodeDb → NodeDb) (l : List NodeDb) :
    (modifyLast f l).length = l.length := by
  rcases List.eq_nil_or_concat l with rfl | ⟨L, b, rfl⟩
  · rfl
  · simp only [List.concat_eq_append, modifyLast_concat]
    simp

/-- `modifyLast` leaves everything but the last element unchanged. -/
theorem modifyLast_dropLast (f : NodeDb → NodeDb) (l : List NodeDb) :
    (modifyLast f l).dropLast = l.dropLast := by
  rcases List.eq_nil_or_concat l with rfl | ⟨L, b, rfl⟩
  · rfl
  · simp only [List.concat_eq_append, modifyLast_concat]
    simp

/-- The last element after `modifyLast` is the image of the old last. -/
theorem modifyLast_getLast (f : NodeDb → NodeDb) (l : List NodeDb) :
    (modifyLast f l).getLast? = l.getLast?.map f := by
  rcases List.eq_nil_or_concat l with rfl | ⟨L, b, rfl⟩
  · rfl
  · simp only [List.concat_eq_append, modifyLast_concat]
    simp

/-- Registering appends exactly one record to the capability's own list. -/
theorem dbLookup_dbRegister_self (iface : Nat) (info : TypeInformation) :
    ∀ db : NodeDb, dbLookup (dbRegister db iface info) iface = dbLookup db iface ++ [info]
  | [] => by simp [dbRegister, dbLookup]
  | (k, recs) :: rest => by
      by_cases hk : k = iface
      · simp [dbRegister, dbLookup, hk]
      · simp [dbRegister, dbLookup, hk, dbLookup_dbRegister_self iface info rest]

/-- Registering leaves every other capability's list unchanged. -/
theorem dbLookup_dbRegister_other (iface j : Nat) (info : TypeInformation) (hj : j ≠ iface) :
    ∀ db : NodeDb, dbLookup (dbRegister db iface info) j = dbLookup db j
  | [] => by simp [dbRegister, dbLookup, Ne.symm hj]
  | (k, recs) :: rest => by
      by_cases hk : k = iface
      · subst hk
        simp [dbRegister, dbLookup, Ne.symm hj]
      · simp [dbRegister, dbLookup, hk, dbLookup_dbRegister_other iface j info hj rest]

/-- `applyAtLeaf` on a chain with at least one session rewrites exactly the
innermost session node. -/
theorem applyAtLeaf_concat (r : NodeDb) (s : List NodeDb) (n : NodeDb) (f : NodeDb → NodeDb) :
    applyAtLeaf { root := r, sessions := s ++ [n] } f
      = { root := r, sessions := s ++ [f n] } := by
  cases s with
  | nil => simp [applyAtLeaf, modifyLast]
  | cons a as =>
      have h := modifyLast_concat f (a :: as) n
      simp [applyAtLeaf]
      simpa using h

/-- The effect of one registration operation on a single node. -/
def opNode (op : RegOp) (db : NodeDb) : NodeDb :=
  match op with
  | RegOp.impl iface impl tag => registerImplementation db iface impl tag
  | RegOp.inst iface impl p tag => registerInstance db iface impl p tag

/-- The effect of a sequence of registration operations on a single node. -/
def opsNode : List RegOp → NodeDb → NodeDb
  | [], db => db
  | op :: ops, db => opsNode ops (opNode op db)

/-- The leaf after `applyAtLeaf` is the rewritten old leaf. -/
theorem leaf_applyAtLeaf (c : Chain) (f : NodeDb → NodeDb) :
    (applyAtLeaf c f).leaf = f c.leaf := by
  rcases c with ⟨r, s⟩
  rcases List.eq_nil_or_concat s with rfl | ⟨L, b, rfl⟩
  · simp [applyAtLeaf, Chain.leaf]
  · simp only [List.concat_eq_append]
    rw [applyAtLeaf_concat]
    simp [Chain.leaf, List.getLast?_concat]

/-- `applyAtLeaf` leaves all outer session nodes unchanged. -/
theorem applyAtLeaf_sessions_dropLast (c : Chain) (f : NodeDb → NodeDb) :
    (applyAtLeaf c f).sessions.dropLast = c.sessions.dropLast := by
  rcases c with ⟨r, s⟩
  cases s with
  | nil => rfl
  | cons a as => simp [applyAtLeaf, modifyLast_dropLast]

/-- `applyAtLeaf` keeps the number of open sessions. -/
theorem applyAtLeaf_sessions_length (c : Chain) (f : NodeDb → NodeDb) :
    (applyAtLeaf c f).sessions.length = c.sessions.length := by
  rcases c with ⟨r, s⟩
  cases s with
  | nil => rfl
  | cons a as => simp [applyAtLeaf, modifyLast_length]

/-- With at least one open session, `applyAtLeaf` leaves the root alone. -/
theorem applyAtLeaf_root (c : Chain) (f : NodeDb → NodeDb) (h : c.sessions ≠ []) :
    (applyAtLeaf c f).root = c.root := by
  rcases c with ⟨r, s⟩
  cases s with
  | nil => exact absurd rfl h
  | cons a as => rfl

/-- With no open session, `applyAtLeaf` opens none. -/
theorem applyAtLeaf_sessions_nil (c : Chain) (f : NodeDb → NodeDb) (h : c.sessions = []) :
    (applyAtLeaf c f).sessions = [] := by
  rcases c with ⟨r, s⟩
  cases h
  rfl

/-- The node list walked by `deepFind` ends in the current leaf. -/
theorem toList_eq_concat_leaf (c : Chain) : ∃ l, c.toList = l ++ [c.leaf] := by
  rcases c with ⟨r, s⟩
  rcases List.eq_nil_or_concat s with rfl | ⟨L, b, rfl⟩
  · exact ⟨[], rfl⟩
  · refine ⟨r :: L, ?_⟩
    simp [Chain.toList, Chain.leaf, List.getLast?_concat]

/-- A match in the last (innermost) node decides the whole deep lookup. -/
theorem deepFind_concat_some (iface : Nat) (tag : String) (n : NodeDb)
    (r : TypeInformation) (h : shallowFind n iface tag = some r) :
    ∀ l : List NodeDb, deepFind (l ++ [n]) iface tag = some r
  | [] => by simp [deepFind, h]
  | a :: l => by
      have ih := deepFind_concat_some iface tag n r h l
      show deepFind ((a :: l) ++ [n]) iface tag = some r
      simp only [List.cons_append]
      simp [deepFind, ih]

/-- A registration entry point on a chain with an open session rewrites
exactly the innermost session node. -/
theorem applyOp_concat (r : NodeDb) (s : List NodeDb) (n : NodeDb) (op : RegOp) :
    applyOp { root := r, sessions := s ++ [n] } op
      = { root := r, sessions := s ++ [opNode op n] } := by
  cases op with
  | impl iface impl tag =>
      exact applyAtLeaf_concat r s n (fun db => registerImplementation db iface impl tag)
  | inst iface impl p tag =>
      exact applyAtLeaf_concat r s n (fun db => registerInstance db iface impl p tag)

/-- A sequence of registrations on a chain with an open session rewrites
exactly the innermost session node. -/
theorem applyOps_concat (r : NodeDb) (s : List NodeDb) (n : NodeDb) :
    ∀ ops : List RegOp, applyOps { root := r, sessions := s ++ [n] } ops
      = { root := r, sessions := s ++ [opsNode ops n] }
  | [] => rfl
  | op :: ops => by
      show applyOps (applyOp { root := r, sessions := s ++ [n] } op) ops = _
      rw [applyOp_concat]
      exact applyOps_concat r s (opNode op n) ops

/-! ## Claims -/

/-- C6.  LIFO sessions round-trip: from any registry state `S`, opening
session A, registering arbitrarily inside it, opening session B, registering
arbitrarily inside it, then closing B and closing A restores the chain —
root, leaf pointer and every binding list — exactly to `S`; everything
registered inside A or B is gone with the respective node. -/
theorem session_lifo_restores_chain (S : Chain) (opsA opsB : List RegOp) :
    closeChain (closeChain
      (applyOps (openChain (applyOps (openChain S) opsA)) opsB)) = S := by
  rcases S with ⟨r, s⟩
  show closeChain (closeChain
      (applyOps (openChain (applyOps { root := r, sessions := s ++ [[]] } opsA)) opsB)) = _
  rw [applyOps_concat]
  show closeChain (closeChain
      (applyOps { root := r, sessions := (s ++ [opsNode opsA []]) ++ [[]] } opsB)) = _
  rw [applyOps_concat]
  simp [closeChain]

/-- A record stored with tag `"x"`, appended first in the C1 counterexample
node. -/
def cexTagged : TypeInformation :=
  { typeId := 1, ownerShip := OwnerShip.OS_OWNED, shortName := 7, qualifName := 7,
    tag := "x", ctor := none }

/-- A record stored with the empty tag, appended second in the C1
counterexample node. -/
def cexUntagged : TypeInformation :=
  { typeId := 2, ownerShip := OwnerShip.OS_OWNED, shortName := 7, qualifName := 7,
    tag := "", ctor := none }

/-- The C1 counterexample node: capability 7 holds the tagged record, then
the untagged one. -/
def cexNode : NodeDb := [(7, [cexTagged, cexUntagged])]

/-- C1 counterexample.  The claim says a non-empty requested tag returns the
most recent record whose stored tag equals the request, with the empty-tag
record only a fallback.  On a node where a record with the exactly matching
tag `"x"` exists, `shallowFind` requested with `"x"` nevertheless returns
the untagged record: the requested tag is never compared against stored
tags. -/
theorem shallowFind_exact_tag_match_cex :
    cexTagged ∈ dbLookup cexNode 7 ∧ cexTagged.tag = "x"
    ∧ shallowFind cexNode 7 "x" = some cexUntagged
    ∧ cexUntagged ≠ cexTagged ∧ cexUntagged.tag ≠ "x" := by
  decide

/-- C1 (amended).  For a non-empty requested tag, `shallowFind` ignores the
requested tag entirely: the result does not depend on which non-empty tag
was requested; it is `none` exactly when the node has no record for the
capability; and it is the most recently appended record with an empty stored
tag when one exists, otherwise the most recently appended record regardless
of tag. -/
theorem shallowFind_nonempty_tag_ignores_request (db : NodeDb) (iface : Nat)
    (tag : String) (htag : tag ≠ "") :
    (∀ t', t' ≠ "" → shallowFind db iface tag = shallowFind db iface t')
    ∧ (shallowFind db iface tag = none ↔ dbLookup db iface = [])
    ∧ ∀ r, shallowFind db iface tag = some r →
        (r.tag = "" ∧ ∃ l1 l2, dbLookup db iface = l1 ++ r :: l2 ∧ ∀ x ∈ l2, x.tag ≠ "")
        ∨ ((∀ x ∈ dbLookup db iface, x.tag ≠ "") ∧ (dbLookup db iface).getLast? = some r) := by
  refine ⟨?_, ?_, ?_⟩
  · intro t' ht'
    simp [shallowFind, htag, ht']
  · cases hfind : (dbLookup db iface).reverse.find? (fun r => r.tag = "") with
    | some m =>
        simp only [shallowFind, htag, if_neg htag, hfind]
        constructor
        · intro h
          exact absurd h (by simp)
        · intro h
          rw [h] at hfind
          simp at hfind
    | none =>
        simp [shallowFind, htag, hfind]
  · intro r hr
    cases hfind : (dbLookup db iface).reverse.find? (fun r => r.tag = "") with
    | some m =>
        simp [shallowFind, htag, hfind] at hr
        subst hr
        left
        have hchar := (reverse_find_eq_some_iff (dbLookup db iface)
          (fun x => decide (x.tag = "")) m).mp hfind
        obtain ⟨hp, l1, l2, hsplit, hall⟩ := hchar
        refine ⟨by simpa using hp, l1, l2, hsplit, ?_⟩
        intro x hx
        simpa using hall x hx
    | none =>
        simp [shallowFind, htag, hfind] at hr
        right
        have hchar := (reverse_find_eq_none_iff (dbLookup db iface)
          (fun r => decide (r.tag = ""))).mp hfind
        refine ⟨?_, hr⟩
        intro x hx
        simpa using hchar x hx

/-- Witness for the amended C1 theorem at a concrete node and concrete
non-empty tags. -/
theorem shallowFind_nonempty_tag_ignores_request_witness :
    shallowFind cexNode 7 "x" = shallowFind cexNode 7 "y" :=
  (shallowFind_nonempty_tag_ignores_request cexNode 7 "x" (by decide)).1 "y" (by decide)

/-- A match in a node decides the deep lookup of any chain rooted at it. -/
theorem deepFind_cons_isSome (n : NodeDb) (rest : List NodeDb) (iface : Nat)
    (tag : String) (h : (shallowFind n iface tag).isSome) :
    (deepFind (n :: rest) iface tag).isSome := by
  cases hrest : deepFind rest iface tag with
  | some m => simp [deepFind, hrest]
  | none => simpa [deepFind, hrest] using h

/-- C2.  Deep lookup is innermost-wins: a node delegates to its child chain
first and answers from its own `shallowFind` only when the child chain has
no match; and whenever a node has a local match, all nodes above it (towards
the root) are irrelevant to the result. -/
theorem deepFind_innermost_wins (pre post rest : List NodeDb) (node n : NodeDb)
    (iface : Nat) (tag : String) :
    ((deepFind rest iface tag).isSome →
        deepFind (n :: rest) iface tag = deepFind rest iface tag)
    ∧ (deepFind rest iface tag = none →
        deepFind (n :: rest) iface tag = shallowFind n iface tag)
    ∧ ((shallowFind node iface tag).isSome →
        deepFind (pre ++ node :: post) iface tag = deepFind (node :: post) iface tag) := by
  refine ⟨?_, ?_, ?_⟩
  · intro h
    cases hrest : deepFind rest iface tag with
    | some m => simp [deepFind, hrest]
    | none => rw [hrest] at h; simp at h
  · intro h
    simp [deepFind, h]
  · intro h
    induction pre with
    | nil => rfl
    | cons a pre ih =>
        have hsome := deepFind_cons_isSome node post iface tag h
        obtain ⟨m, hm⟩ := Option.isSome_iff_exists.mp hsome
        have hstep : deepFind ((a :: pre) ++ node :: post) iface tag
            = match deepFind (pre ++ node :: post) iface tag with
              | some x => some x
              | none => shallowFind a iface tag := rfl
        rw [hstep, ih, hm]

/-- Witness for C2 at a concrete chain: an outer node with no binding does
not disturb the inner node's match. -/
theorem deepFind_innermost_wins_witness :
    deepFind ([([] : NodeDb)] ++ cexNode :: []) 7 "" = deepFind (cexNode :: []) 7 "" :=
  (deepFind_innermost_wins [([] : NodeDb)] [] [] cexNode [] 7 "").2.2 (by decide)

/-- C3.  When a capability has no binding anywhere in the active chain,
handle construction fails synchronously with the unresolved-interface error;
the error stores the requested capability identity, stores the requested tag
when it is non-empty, and both the capability name and the tag appear
verbatim in the error message; no handle (default or fallback) is
produced. -/
theorem beanConstruct_unresolved (c : Chain) (iface : Nat) (tag : String)
    (h : Heap) (hnone : deepFind c.toList iface tag = none) :
    ∃ err : InterfaceNotDeclaredError,
      beanConstruct c iface tag h = Except.error err
      ∧ err.typeInfo = iface
      ∧ (tag ≠ "" → err.tag = tag ∧ ∃ s1 s2, err.what = s1 ++ tag ++ s2)
      ∧ ∃ p1 p2, err.what = p1 ++ capName iface ++ p2 := by
  by_cases ht : tag = ""
  · subst ht
    refine ⟨errorNoTag iface, ?_, rfl, ?_, ?_⟩
    · simp [beanConstruct, hnone]
    · intro hcontra
      exact absurd rfl hcontra
    · exact ⟨"Beans: Implementation for \"", "\" was not declared.", rfl⟩
  · refine ⟨errorWithTag iface tag, ?_, rfl, ?_, ?_⟩
    · simp [beanConstruct, hnone, ht]
    · refine fun _ => ⟨rfl,
        "Beans: Implementation for \"" ++ capName iface ++ "\" with tag \"",
        "\" was not declared.", rfl⟩
    · refine ⟨"Beans: Implementation for \"",
        "\" with tag \"" ++ tag ++ "\" was not declared.", ?_⟩
      simp [errorWithTag, String.append_assoc]

/-- Witness for C3: an empty registry rejects capability 5 with tag "t". -/
theorem beanConstruct_unresolved_witness :
    ∃ err : InterfaceNotDeclaredError,
      beanConstruct { root := [], sessions := [] } 5 "t" { next := 0, live := [] }
          = Except.error err
      ∧ err.typeInfo = 5
      ∧ ("t" ≠ "" → err.tag = "t" ∧ ∃ s1 s2, err.what = s1 ++ "t" ++ s2)
      ∧ ∃ p1 p2, err.what = p1 ++ capName 5 ++ p2 :=
  beanConstruct_unresolved { root := [], sessions := [] } 5 "t"
    { next := 0, live := [] } (by decide)

/-- C4.  Against a resolved REGISTRY_OWNED binding, every independently
constructed handle runs the factory exactly once (one fresh allocation per
construction) and receives a distinct, freshly constructed instance; the
handle owns it, and its destruction deletes exactly that instance. -/
theorem beanConstruct_registryOwned (c : Chain) (iface impl : Nat) (tag : String)
    (h : Heap) (hwf : heapWF h)
    (hfind : deepFind c.toList iface tag = some (implRecord iface impl)) :
    ∃ b1 h1 b2 h2,
      beanConstruct c iface tag h = Except.ok (b1, h1)
      ∧ beanConstruct c iface tag h1 = Except.ok (b2, h2)
      ∧ b1.owned = true ∧ b2.owned = true
      ∧ b1.ptr ∉ h.live ∧ h1.live = h.live ++ [b1.ptr] ∧ h1.next = h.next + 1
      ∧ b2.ptr ∉ h1.live ∧ h2.live = h1.live ++ [b2.ptr]
      ∧ b1.ptr ≠ b2.ptr
      ∧ beanDestroy b1 h1 = { next := h1.next, live := h.live }
      ∧ beanDestroy b2 h2 = { next := h2.next, live := h1.live } := by
  have hmem1 : h.next ∉ h.live := by
    intro hmem
    exact absurd (hwf h.next hmem) (lt_irrefl h.next)
  have hmem2 : h.next + 1 ∉ h.live ++ [h.next] := by
    intro hmem
    rcases List.mem_append.mp hmem with hin | hin
    · have := hwf (h.next + 1) hin
      omega
    · simp at hin
  refine ⟨{ ptr := h.next, owned := true },
          { next := h.next + 1, live := h.live ++ [h.next] },
          { ptr := h.next + 1, owned := true },
          { next := h.next + 2, live := (h.live ++ [h.next]) ++ [h.next + 1] },
          ?_, ?_, rfl, rfl, hmem1, rfl, rfl, hmem2, rfl, by simp, ?_, ?_⟩
  · simp [beanConstruct, hfind, invokeCtor, implRecord]
  · simp [beanConstruct, hfind, invokeCtor, implRecord]
  · simp only [beanDestroy, if_pos]
    rw [List.erase_append_right _ hmem1]
    simp
  · simp only [beanDestroy, if_pos]
    rw [List.erase_append_right _ hmem2]
    simp

/-- Witness for C4: a root-only chain with one REGISTRY_OWNED binding and an
empty heap. -/
theorem beanConstruct_registryOwned_witness :
    ∃ b1 h1 b2 h2,
      beanConstruct { root := [(3, [implRecord 3 4])], sessions := [] } 3 ""
          { next := 0, live := [] } = Except.ok (b1, h1)
      ∧ beanConstruct { root := [(3, [implRecord 3 4])], sessions := [] } 3 ""
          h1 = Except.ok (b2, h2)
      ∧ b1.owned = true ∧ b2.owned = true
      ∧ b1.ptr ∉ ({ next := 0, live := ([] : List Nat) } : Heap).live
      ∧ h1.live = ({ next := 0, live := ([] : List Nat) } : Heap).live ++ [b1.ptr]
      ∧ h1.next = ({ next := 0, live := ([] : List Nat) } : Heap).next + 1
      ∧ b2.ptr ∉ h1.live ∧ h2.live = h1.live ++ [b2.ptr]
      ∧ b1.ptr ≠ b2.ptr
      ∧ beanDestroy b1 h1 = { next := h1.next, live := ([] : List Nat) }
      ∧ beanDestroy b2 h2 = { next := h2.next, live := h1.live } :=
  beanConstruct_registryOwned { root := [(3, [implRecord 3 4])], sessions := [] }
    3 4 "" { next := 0, live := [] } (by intro x hx; simp at hx) (by decide)

/-- C5.  Against a resolved EXTERNALLY_OWNED binding, every handle, from any
heap, resolves to the identical externally supplied instance pointer, takes
no ownership, allocates nothing, and its destruction never deletes that
instance. -/
theorem beanConstruct_externallyOwned (c : Chain) (iface impl p : Nat)
    (tag : String) (hfind : deepFind c.toList iface tag = some (instRecord iface impl p)) :
    ∀ h : Heap,
      beanConstruct c iface tag h = Except.ok ({ ptr := p, owned := false }, h)
      ∧ beanDestroy { ptr := p, owned := false } h = h := by
  intro h
  constructor
  · simp [beanConstruct, hfind, invokeCtor, instRecord]
  · simp [beanDestroy]

/-- Witness for C5: a root-only chain with one EXTERNALLY_OWNED binding for
instance 99; construction from a heap where 99 is live returns 99 itself and
destruction keeps it alive. -/
theorem beanConstruct_externallyOwned_witness :
    beanConstruct { root := [(3, [instRecord 3 4 99])], sessions := [] } 3 ""
        { next := 100, live := [99] } = Except.ok ({ ptr := 99, owned := false },
        { next := 100, live := [99] })
    ∧ beanDestroy { ptr := 99, owned := false } { next := 100, live := [99] }
        = { next := 100, live := [99] } :=
  beanConstruct_externallyOwned { root := [(3, [instRecord 3 4 99])], sessions := [] }
    3 4 99 "" (by decide) { next := 100, live := [99] }

/-- A fresh global state: empty root, no open session, lock free. -/
def g0 : GlobalState := { chain := { root := [], sessions := [] }, lockDepth := 0 }

/-- Closing the session opened last (after arbitrary registrations inside
it) restores the chain that existed before it was opened. -/
theorem closeChain_applyOps_openChain (c : Chain) (ops : List RegOp) :
    closeChain (applyOps (openChain c) ops) = c := by
  rcases c with ⟨r, s⟩
  show closeChain (applyOps { root := r, sessions := s ++ [[]] } ops) = _
  rw [applyOps_concat]
  simp [closeChain]

/-- C7 counterexample.  In the `include/beans.hpp` variant of
`LockedEnvironment`, closing via `unlock()` does NOT detach the session's
node: after opening a session on the fresh state and calling `unlock()` the
session node is still attached as the leaf, and destroying the
already-unlocked session still mutates the registry state — contradicting
the claim that the first close detaches the node and that destruction after
a close leaves the chain unchanged. -/
theorem envHpp_unlock_not_close_cex :
    ((envUnlockHpp (envOpenHpp g0).1 (envOpenHpp g0).2).2).chain.sessions = [([] : NodeDb)]
    ∧ envDestroyHpp (envUnlockHpp (envOpenHpp g0).1 (envOpenHpp g0).2).1
        (envUnlockHpp (envOpenHpp g0).1 (envOpenHpp g0).2).2
      ≠ (envUnlockHpp (envOpenHpp g0).1 (envOpenHpp g0).2).2 := by
  decide

/-- C7 (amended).  For the documented `LockedEnvironment` of
`unnamed/part_000` the claim holds: `unlock` run twice equals `unlock` run
once, destroying an already-closed session has no further effect, the first
close detaches the session's node and releases the lock, and closing a
freshly opened session restores the previous global state (parent leaf and
lock) exactly.  (In the `include/beans.hpp` variant, by contrast, `unlock()`
only releases the lock and the detach happens only at destruction, which is
unconditional — see the counterexample.) -/
theorem envP0_close_idempotent (e : EnvP0) (g : GlobalState) :
    envUnlockP0 (envUnlockP0 e g).1 (envUnlockP0 e g).2 = envUnlockP0 e g
    ∧ envDestroyP0 (envUnlockP0 e g).1 (envUnlockP0 e g).2 = (envUnlockP0 e g).2
    ∧ (e.unlocked = false →
        (envUnlockP0 e g).2.chain = closeChain g.chain
        ∧ (envUnlockP0 e g).2.lockDepth = g.lockDepth - 1
        ∧ (envUnlockP0 e g).1.unlocked = true)
    ∧ ∀ g' : GlobalState, envUnlockP0 (envOpenP0 g').1 (envOpenP0 g').2
        = ({ unlocked := true }, g') := by
  refine ⟨?_, ?_, ?_, ?_⟩
  · rcases e with ⟨u⟩
    cases u <;> simp [envUnlockP0]
  · rcases e with ⟨u⟩
    cases u <;> simp [envDestroyP0, envUnlockP0]
  · intro hu
    rcases e with ⟨u⟩
    cases hu
    simp [envUnlockP0]
  · intro g'
    rcases g' with ⟨c, d⟩
    simp [envOpenP0, envUnlockP0, closeChain_applyOps_openChain c ([] : List RegOp)]
    exact closeChain_applyOps_openChain c []

/-- Witness for the amended C7 theorem: a concrete not-yet-closed session on
an opened state. -/
theorem envP0_close_idempotent_witness :
    (envUnlockP0 { unlocked := false }
        { chain := { root := [], sessions := [[]] }, lockDepth := 1 }).2.chain
      = closeChain { root := [], sessions := [[]] }
    ∧ (envUnlockP0 { unlocked := false }
        { chain := { root := [], sessions := [[]] }, lockDepth := 1 }).2.lockDepth
      = 1 - 1
    ∧ (envUnlockP0 { unlocked := false }
        { chain := { root := [], sessions := [[]] }, lockDepth := 1 }).1.unlocked = true :=
  (envP0_close_idempotent { unlocked := false }
    { chain := { root := [], sessions := [[]] }, lockDepth := 1 }).2.2.1 rfl

/-- C8.  Each registration entry point appends exactly one binding record to
the current leaf node's list for the registered capability (the root when no
session is open, the innermost session node otherwise), leaves every other
capability's list at the leaf unchanged, and leaves the root (when a session
is open) and every outer session node unchanged; being total functions on
the whole state space, the entry points never fail. -/
theorem register_appends_one_record (c : Chain) (iface impl p j : Nat) (tag : String) :
    dbLookup ((beansRegisterImplementation c iface impl tag).leaf) iface
        = dbLookup c.leaf iface ++ [implRecord iface impl]
    ∧ dbLookup ((beansRegisterInstance c iface impl p tag).leaf) iface
        = dbLookup c.leaf iface ++ [instRecord iface impl p]
    ∧ (j ≠ iface →
        dbLookup ((beansRegisterImplementation c iface impl tag).leaf) j = dbLookup c.leaf j
        ∧ dbLookup ((beansRegisterInstance c iface impl p tag).leaf) j = dbLookup c.leaf j)
    ∧ (beansRegisterImplementation c iface impl tag).sessions.dropLast = c.sessions.dropLast
    ∧ (beansRegisterInstance c iface impl p tag).sessions.dropLast = c.sessions.dropLast
    ∧ (beansRegisterImplementation c iface impl tag).sessions.length = c.sessions.length
    ∧ (beansRegisterInstance c iface impl p tag).sessions.length = c.sessions.length
    ∧ (c.sessions ≠ [] →
        (beansRegisterImplementation c iface impl tag).root = c.root
        ∧ (beansRegisterInstance c iface impl p tag).root = c.root) := by
  refine ⟨?_, ?_, fun hj => ⟨?_, ?_⟩, ?_, ?_, ?_, ?_, fun hs => ⟨?_, ?_⟩⟩
  · rw [beansRegisterImplementation, leaf_applyAtLeaf]
    exact dbLookup_dbRegister_self iface (implRecord iface impl) c.leaf
  · rw [beansRegisterInstance, leaf_applyAtLeaf]
    exact dbLookup_dbRegister_self iface (instRecord iface impl p) c.leaf
  · rw [beansRegisterImplementation, leaf_applyAtLeaf]
    exact dbLookup_dbRegister_other iface j (implRecord iface impl) hj c.leaf
  · rw [beansRegisterInstance, leaf_applyAtLeaf]
    exact dbLookup_dbRegister_other iface j (instRecord iface impl p) hj c.leaf
  · exact applyAtLeaf_sessions_dropLast c _
  · exact applyAtLeaf_sessions_dropLast c _
  · exact applyAtLeaf_sessions_length c _
  · exact applyAtLeaf_sessions_length c _
  · exact applyAtLeaf_root c _ hs
  · exact applyAtLeaf_root c _ hs

/-- Witness for C8 at a concrete chain with one open session: another
capability's list and the root are untouched. -/
theorem register_appends_one_record_witness :
    (dbLookup ((beansRegisterImplementation { root := [], sessions := [[]] } 3 4 "t").leaf) 9
        = dbLookup (Chain.leaf { root := [], sessions := [[]] }) 9
      ∧ dbLookup ((beansRegisterInstance { root := [], sessions := [[]] } 3 4 8 "t").leaf) 9
        = dbLookup (Chain.leaf { root := [], sessions := [[]] }) 9)
    ∧ ((beansRegisterImplementation { root := [], sessions := [[]] } 3 4 "t").root
        = Chain.root { root := [], sessions := [[]] }
      ∧ (beansRegisterInstance { root := [], sessions := [[]] } 3 4 8 "t").root
        = Chain.root { root := [], sessions := [[]] }) :=
  ⟨(register_appends_one_record { root := [], sessions := [[]] } 3 4 8 9 "t").2.2.1
      (by decide),
   (register_appends_one_record { root := [], sessions := [[]] } 3 4 8 9 "t").2.2.2.2.2.2.2
      (by simp)⟩

/-- C9.  Both registration templates discard the `tag` argument: the stored
record's tag field is empty, registering with any non-empty tag produces the
identical chain as registering with the empty tag (so no resolution result
can depend on the registration tag), and a handle constructed afterwards
with the empty requested tag resolves to the just-registered binding. -/
theorem registration_discards_tag (c : Chain) (iface impl p : Nat) (t : String)
    (ht : t ≠ "") :
    (implRecord iface impl).tag = "" ∧ (instRecord iface impl p).tag = ""
    ∧ beansRegisterImplementation c iface impl t = beansRegisterImplementation c iface impl ""
    ∧ beansRegisterInstance c iface impl p t = beansRegisterInstance c iface impl p ""
    ∧ deepFind (beansRegisterImplementation c iface impl t).toList iface ""
        = some (implRecord iface impl)
    ∧ ∀ h : Heap, beanConstruct (beansRegisterImplementation c iface impl t) iface "" h
        = Except.ok ({ ptr := h.next, owned := true },
                     { next := h.next + 1, live := h.live ++ [h.next] }) := by
  have hleaf : dbLookup (beansRegisterImplementation c iface impl t).leaf iface
      = dbLookup c.leaf iface ++ [implRecord iface impl] := by
    rw [beansRegisterImplementation, leaf_applyAtLeaf]
    exact dbLookup_dbRegister_self iface (implRecord iface impl) c.leaf
  have hshallow : shallowFind (beansRegisterImplementation c iface impl t).leaf iface ""
      = some (implRecord iface impl) := by
    simp [shallowFind, hleaf, implRecord]
  have hdeep : deepFind (beansRegisterImplementation c iface impl t).toList iface ""
      = some (implRecord iface impl) := by
    obtain ⟨l, hl⟩ := toList_eq_concat_leaf (beansRegisterImplementation c iface impl t)
    rw [hl]
    exact deepFind_concat_some iface "" _ _ hshallow l
  refine ⟨rfl, rfl, rfl, rfl, hdeep, ?_⟩
  intro h
  simp [beanConstruct, hdeep, invokeCtor, implRecord]

/-- Witness for C9 at a concrete chain and the registration tag "tag". -/
theorem registration_discards_tag_witness :
    beansRegisterImplementation { root := [], sessions := [] } 3 4 "tag"
      = beansRegisterImplementation { root := [], sessions := [] } 3 4 ""
    ∧ deepFind (beansRegisterImplementation { root := [], sessions := [] } 3 4 "tag").toList 3 ""
      = some (implRecord 3 4) :=
  ⟨(registration_discards_tag { root := [], sessions := [] } 3 4 0 "tag" (by decide)).2.2.1,
   (registration_discards_tag { root := [], sessions := [] } 3 4 0 "tag"
      (by decide)).2.2.2.2.1⟩

/-- C10 scenario, `include/beans.hpp` variant: construct a session on the
fresh state, register a binding for capability 5 inside it, call
`unlock()`. -/
def scenarioHpp : GlobalState :=
  let og := envOpenHpp g0
  let g1 : GlobalState := { og.2 with chain := beansRegisterImplementation og.2.chain 5 9 "" }
  (envUnlockHpp og.1 g1).2

/-- C10 scenario, `unnamed/part_000` variant: the same operation sequence —
construct a session on the fresh state, register a binding for capability 5
inside it, call `unlock()`. -/
def scenarioP0 : GlobalState :=
  let og := envOpenP0 g0
  let g1 : GlobalState := { og.2 with chain := beansRegisterImplementation og.2.chain 5 9 "" }
  (envUnlockP0 og.1 g1).2

/-- C10 counterexample.  The identical construct / register / unlock
sequence leaves the two `LockedEnvironment` variants in observably different
registry states: after `unlock()` the `include/beans.hpp` variant still has
the session node attached, so a handle for capability 5 resolves to the
session's binding, while the `part_000` variant has detached it, so the same
resolution finds nothing. -/
theorem lockedEnvironment_variants_cex :
    deepFind scenarioHpp.chain.toList 5 "" = some (implRecord 5 9)
    ∧ deepFind scenarioP0.chain.toList 5 "" = none
    ∧ scenarioHpp.chain ≠ scenarioP0.chain := by
  decide

/-- C10 (amended).  The two `LockedEnvironment` variants agree on whole
session lifecycles: both produce the same state on open; and from any state,
opening a session, registering arbitrarily inside it, and then either
destroying the session object directly or unlocking first and then
destroying it returns both variants exactly to the pre-open state.  They are
not equivalent in general: between `unlock()` and destruction the
`include/beans.hpp` variant keeps the session node attached while
`part_000` has already detached it (see the counterexample). -/
theorem lockedEnvironment_variants_agree (g : GlobalState) (ops : List RegOp) :
    (envOpenHpp g).2 = (envOpenP0 g).2
    ∧ envDestroyHpp (envOpenHpp g).1
        { (envOpenHpp g).2 with chain := applyOps (envOpenHpp g).2.chain ops } = g
    ∧ envDestroyP0 (envOpenP0 g).1
        { (envOpenP0 g).2 with chain := applyOps (envOpenP0 g).2.chain ops } = g
    ∧ envDestroyHpp
        (envUnlockHpp (envOpenHpp g).1
          { (envOpenHpp g).2 with chain := applyOps (envOpenHpp g).2.chain ops }).1
        (envUnlockHpp (envOpenHpp g).1
          { (envOpenHpp g).2 with chain := applyOps (envOpenHpp g).2.chain ops }).2 = g
    ∧ envDestroyP0
        (envUnlockP0 (envOpenP0 g).1
          { (envOpenP0 g).2 with chain := applyOps (envOpenP0 g).2.chain ops }).1
        (envUnlockP0 (envOpenP0 g).1
          { (envOpenP0 g).2 with chain := applyOps (envOpenP0 g).2.chain ops }).2 = g := by
  have hcc := closeChain_applyOps_openChain g.chain ops
  refine ⟨rfl, ?_, ?_, ?_, ?_⟩
  · simp [envOpenHpp, envDestroyHpp, hcc]
  · simp [envOpenP0, envDestroyP0, envUnlockP0, hcc]
  · simp [envOpenHpp, envDestroyHpp, envUnlockHpp, hcc]
  · simp [envOpenP0, envDestroyP0, envUnlockP0, hcc]
